import Mathlib

/-!
Verification of the FAQ-matching chatbot in `chat_faq.py`
(`LuxuryBoutiqueChatbot`).  The Python class is shallowly embedded:

* a FAQ record (a JSON dictionary in the source) becomes the structure
  `Faq`, with `Option` fields for the keys the code accesses through
  `dict.get` / `in` tests;
* Python's `needle in haystack` substring test becomes `strContains`,
  and `str.lower` becomes `pyLower`;
* the spaCy pipeline `self.nlp` is an opaque parameter `nlp` mapping a
  string to its tokens (the code only reads the token attributes
  `is_stop`, `is_punct`, `like_num`, `is_currency`, `is_alpha`, the
  token text, its length and its lemma, which the structure `Tok`
  records);
* the TF-IDF scores computed by scikit-learn are an opaque parameter
  `score` on the routing level, and cosine similarity over real
  weight vectors is modelled explicitly for the bound claims.
-/

/-- Token attributes read by `preprocess_text` from a spaCy token. -/
structure Tok where
  text : String
  lemma_ : String
  is_stop : Bool
  is_punct : Bool
  like_num : Bool
  is_currency : Bool
  is_alpha : Bool
deriving DecidableEq, Repr

/-- A FAQ record, as loaded from `faqs.json`.  Keys the code accesses
with `dict.get` or an `in` test (`collection`, `price_range`,
`services`, `tags`) are optional; `question` and `answer` are accessed
with plain indexing and hence required. -/
structure Faq where
  question : String
  answer : String
  tags : List String
  collection : Option String
  price_range : Option String
  services : Option (List (String × String × String))
deriving DecidableEq, Repr

instance : Inhabited Faq := ⟨⟨"", "", [], none, none, none⟩⟩

/-- Python list-membership test for characters: `needle` is a leading
segment of `hay`. -/
def isLeadOf : List Char → List Char → Bool
  | [], _ => true
  | _ :: _, [] => false
  | a :: as, b :: bs => a == b && isLeadOf as bs

/-- Substring occurrence on character lists (Python `needle in hay`). -/
def occursIn (needle : List Char) : List Char → Bool
  | [] => isLeadOf needle []
  | b :: bs => isLeadOf needle (b :: bs) || occursIn needle bs

/-- Python's `needle in hay` on strings. -/
def strContains (hay needle : String) : Bool :=
  occursIn needle.data hay.data

/-- Python's `str.lower`, character by character (ASCII case mapping). -/
def pyLower (s : String) : String := String.mk (s.data.map Char.toLower)

/-- The fixed pricing keyword list of `generate_response`. -/
def pricingKeywords : List String := ["price", "cost", "how much"]

/-- The test `any(word in user_query.lower() for word in [...])` from
`generate_response`. -/
def hasPricingKeyword (user_query : String) : Bool :=
  pricingKeywords.any (fun word => strContains (pyLower user_query) word)

/-- The body of `load_faqs`: the `try` block's file read and JSON parse
is the `Except` argument (`Except.error` when `open`/`json.load`/
`data.get` raises); on success the parse yields the value of the
top-level key `"faqs"` when the key is present (`Option.none` models a
document without the key, where `data.get("faqs", [])` returns `[]`).
The result pairs the returned corpus with the `st.error` message
surfaced on failure. -/
def load_faqs (read : Except String (Option (List Faq))) :
    List Faq × Option String :=
  match read with
  | Except.error e => ([], some ("Error loading FAQ file: " ++ e))
  | Except.ok data => (data.getD [], none)

/-- The method `get_unique_collections`: the set of `faq.get('collection', '')`
values (here a duplicate-free list; Python's set order is arbitrary, so
all claims about it are order-insensitive). -/
def get_unique_collections (faqs : List Faq) : List String :=
  (faqs.map (fun faq => faq.collection.getD "")).dedup

/-- The method `process_services`. -/
def process_services (services : List (String × String × String)) : String :=
  String.intercalate " "
    (services.map (fun s => "SERVICE_" ++ s.1.replace " " "_"))

/-- The method `build_search_context`: one search text per FAQ record. -/
def build_search_context (faqs : List Faq) : List String :=
  faqs.map (fun faq =>
    faq.question ++ " " ++ faq.answer ++ " " ++
    String.intercalate " " faq.tags ++ " " ++
    faq.collection.getD "" ++ " " ++
    faq.price_range.getD "" ++ " " ++
    process_services (faq.services.getD []))

/-- The per-token body of the loop in `preprocess_text`: `continue` on
stopwords and punctuation, keep the lowercased surface form of numeric
or currency tokens, keep the lowercased lemma of alphabetic tokens
longer than two characters, drop everything else. -/
def prStep (token : Tok) : Option String :=
  if token.is_stop || token.is_punct then none
  else if token.like_num || token.is_currency then some (pyLower token.text)
  else if token.is_alpha && decide (2 < token.text.length) then
    some (pyLower token.lemma_)
  else none

/-- The token filter loop of `preprocess_text`, before the
`or ['boutique', 'shirt']` fallback. -/
def preprocessCore (nlp : String → List Tok) (text : String) : List String :=
  (nlp text).filterMap prStep

/-- The method `preprocess_text`: filtered tokens, or the fixed
two-token fallback when the filter removed everything (Python's
`return tokens or ['boutique', 'shirt']`). -/
def preprocess_text (nlp : String → List Tok) (text : String) : List String :=
  if (preprocessCore nlp text).isEmpty then ["boutique", "shirt"]
  else preprocessCore nlp text

/-- The method `get_fallback_pricing`. -/
def get_fallback_pricing : String :=
  "Our collections are priced at:\n" ++
  "- 🎨 Casual: $45-$65\n" ++
  "- 🌟 Premium: $85-$120\n" ++
  "- 🎁 Luxury: $150+"

/-- The method `get_fallback_response`. -/
def get_fallback_response : String :=
  "Here are some suggestions:\n" ++
  String.intercalate "\n- "
    ["Ask about our Casual, Premium, or Luxury collections",
     "Need price ranges? Try: \x27What\x27s the cost of premium shirts?\x27",
     "Ask about services like alterations or monogramming"]

/-- The `if 'price_range' in faq: if faq['price_range'].lower() in
query.lower()` test of `handle_pricing_query`. -/
def pricingMatches (query : String) (faq : Faq) : Bool :=
  match faq.price_range with
  | some pr => strContains (pyLower query) (pyLower pr)
  | none => false

/-- The block appended to `price_info` for a matching record. -/
def priceBlock (faq : Faq) : String :=
  "**" ++ faq.collection.getD "Collection" ++ "**\n" ++
  "Price Range: " ++ faq.price_range.getD "" ++ "\n" ++
  "Inclusions: " ++ faq.answer ++ "\n"

/-- The method `handle_pricing_query`. -/
def handle_pricing_query (faqs : List Faq) (query : String) : String :=
  let price_info := faqs.filterMap (fun faq =>
    match faq.price_range with
    | some pr =>
        if strContains (pyLower query) (pyLower pr) then
          some ("**" ++ faq.collection.getD "Collection" ++ "**\n" ++
                "Price Range: " ++ pr ++ "\n" ++
                "Inclusions: " ++ faq.answer ++ "\n")
        else none
    | none => none)
  if price_info.isEmpty then get_fallback_pricing
  else String.intercalate "\n" price_info

/-- The method `handle_collection_query`. -/
def handle_collection_query (faqs : List Faq) (collection : String) : String :=
  let collection_faqs := faqs.filter (fun f => f.collection == some collection)
  if collection_faqs.isEmpty then
    "Sorry, we couldn\x27t find details about " ++ collection
  else
    String.intercalate "\n"
      (["✨ **" ++ collection ++ "** ✨", "Featured in this collection:"] ++
       (collection_faqs.take 3).map (fun faq => "- " ++ faq.question))

/-- The method `format_response`. -/
def format_response (faq : Faq) : String :=
  String.intercalate "\n"
    ((match faq.price_range with
      | some pr => ["💰 **Price Range:** " ++ pr]
      | none => []) ++
     [faq.answer] ++
     (match faq.services with
      | some svcs =>
          ["\n**Services Available:**"] ++
          (svcs.take 2).map (fun s => "- " ++ s.1 ++ " (" ++ s.2.2 ++ ")")
      | none => []))

/-- First index of the maximum of a list (`numpy.argmax` on the single
row of the similarity matrix); `0` on the empty list. -/
def argmaxIdx : List ℚ → Nat
  | [] => 0
  | x :: xs =>
      if xs.getD (argmaxIdx xs) x ≤ x then 0 else argmaxIdx xs + 1

/-- The three handler paths of `generate_response`, in source order. -/
inductive Route where
  | pricing : Route
  | collection : String → Route
  | generic : Route
deriving DecidableEq, Repr

/-- The dispatch structure of `generate_response`: the pricing keyword
test first, then the first matching collection of the loop, else the
generic similarity path. -/
def route (collections : List String) (user_query : String) : Route :=
  if hasPricingKeyword user_query then Route.pricing
  else
    match collections.find?
        (fun collection =>
          strContains (pyLower user_query) (pyLower collection)) with
    | some collection => Route.collection collection
    | none => Route.generic

/-- The generic tail of `generate_response`: arg-max of the similarity
row, strict comparison against 0.4, then `format_response` on the best
FAQ or the fallback. -/
def genericResponse (faqs : List Faq) (sims : List ℚ) : String :=
  if (2 : ℚ)/5 < sims.getD (argmaxIdx sims) 0 then
    format_response (faqs.getD (argmaxIdx sims) default)
  else get_fallback_response

/-- The method `generate_response`; `score` abstracts the vectorizer's
`transform` plus `cosine_similarity` row for a query. -/
def generate_response (faqs : List Faq) (collections : List String)
    (score : String → List ℚ) (user_query : String) : String :=
  match route collections user_query with
  | Route.pricing => handle_pricing_query faqs user_query
  | Route.collection collection => handle_collection_query faqs collection
  | Route.generic => genericResponse faqs (score user_query)

/-- Document frequency of a term: the number of documents (token lists)
that contain it. -/
def docFreq (term : String) (docs : List (List String)) : Nat :=
  (docs.filter (fun d => decide (term ∈ d))).length

/-- Modelled from the spec: the fitted vocabulary of
`TfidfVectorizer(min_df=2, ...)` from `__init__` — the library code
(not in `src/`) keeps exactly the corpus terms whose document
frequency reaches `min_df = 2`. -/
def vocabulary (docs : List (List String)) : List String :=
  docs.flatten.dedup.filter (fun term => decide (2 ≤ docFreq term docs))

/-- Dot product of weight vectors, padding with `0` past the end. -/
def dotProd (xs ys : List ℝ) : ℝ :=
  ∑ i ∈ Finset.range xs.length, xs.getD i 0 * ys.getD i 0

/-- Modelled from the spec: `sklearn.metrics.pairwise.cosine_similarity`
(library code, not in `src/`) — the normalized dot product, `0` when
either vector has zero norm (the library leaves zero rows unnormalized,
so their similarities are `0`). -/
noncomputable def cosine_similarity (x y : List ℝ) : ℝ :=
  if dotProd x x = 0 ∨ dotProd y y = 0 then 0
  else dotProd x y / (Real.sqrt (dotProd x x) * Real.sqrt (dotProd y y))

/-- The similarity row `cosine_similarity(query_vec, question_vectors)`
of `generate_response`: one value per document vector, in order. -/
noncomputable def scoreRow (q : List ℝ) (vectors : List (List ℝ)) : List ℝ :=
  vectors.map (cosine_similarity q)

/-- The empty needle occurs in every haystack (`'' in s` is true in
Python). -/
lemma occursIn_nil (hay : List Char) : occursIn [] hay = true := by
  cases hay with
  | nil => rfl
  | cons b bs => simp [occursIn, isLeadOf]

/-- Python's `'' in s` is `True` for every string `s`. -/
lemma strContains_empty (hay : String) : strContains hay "" = true :=
  occursIn_nil hay.data

/-- The arg-max index is in range on a non-empty list. -/
lemma argmaxIdx_lt_length (l : List ℚ) (h : l ≠ []) : argmaxIdx l < l.length := by
  induction l with
  | nil => cases h rfl
  | cons x xs ih =>
    by_cases hc : xs.getD (argmaxIdx xs) x ≤ x
    · simp only [argmaxIdx, if_pos hc, List.length_cons]
      exact Nat.succ_pos _
    · have hxs : xs ≠ [] := by
        intro hnil; subst hnil; simp at hc
      simp only [argmaxIdx, if_neg hc, List.length_cons]
      exact Nat.succ_lt_succ (ih hxs)

/-- The value at the arg-max index is an element of the list. -/
lemma argmaxIdx_getD_mem (l : List ℚ) (h : l ≠ []) :
    l.getD (argmaxIdx l) 0 ∈ l := by
  induction l with
  | nil => cases h rfl
  | cons x xs ih =>
    by_cases hc : xs.getD (argmaxIdx xs) x ≤ x
    · simp only [argmaxIdx, if_pos hc, List.getD_cons_zero]
      exact List.mem_cons_self _ _
    · have hxs : xs ≠ [] := by
        intro hnil; subst hnil; simp at hc
      simp only [argmaxIdx, if_neg hc, List.getD_cons_succ]
      exact List.mem_cons_of_mem _ (ih hxs)

/-- The value at the arg-max index dominates every element. -/
lemma argmaxIdx_getD_ge (l : List ℚ) (a : ℚ) (ha : a ∈ l) :
    a ≤ l.getD (argmaxIdx l) 0 := by
  induction l with
  | nil => cases ha
  | cons x xs ih =>
    by_cases hc : xs.getD (argmaxIdx xs) x ≤ x
    · simp only [argmaxIdx, if_pos hc, List.getD_cons_zero]
      rcases List.mem_cons.1 ha with rfl | hmem
      · exact le_rfl
      · have hxs : xs ≠ [] := List.ne_nil_of_mem hmem
        have h0 : xs.getD (argmaxIdx xs) x = xs.getD (argmaxIdx xs) 0 := by
          rw [List.getD_eq_getElem _ _ (argmaxIdx_lt_length xs hxs),
              List.getD_eq_getElem _ _ (argmaxIdx_lt_length xs hxs)]
        exact le_trans (ih hmem) (h0 ▸ hc)
    · have hxs : xs ≠ [] := by
        intro hnil; subst hnil; simp at hc
      simp only [argmaxIdx, if_neg hc, List.getD_cons_succ]
      rcases List.mem_cons.1 ha with rfl | hmem
      · have h0 : xs.getD (argmaxIdx xs) a = xs.getD (argmaxIdx xs) 0 := by
          rw [List.getD_eq_getElem _ _ (argmaxIdx_lt_length xs hxs),
              List.getD_eq_getElem _ _ (argmaxIdx_lt_length xs hxs)]
        exact le_of_lt (h0 ▸ lt_of_not_le hc)
      · exact ih hmem

/-- When the list has maximum `m`, the value at the arg-max index is
exactly `m`. -/
lemma argmaxIdx_getD_eq_maximum (l : List ℚ) (m : ℚ)
    (h : l.maximum = (m : WithBot ℚ)) : l.getD (argmaxIdx l) 0 = m := by
  have hmem : m ∈ l := List.maximum_mem h
  have hne : l ≠ [] := List.ne_nil_of_mem hmem
  exact le_antisymm
    (List.le_maximum_of_mem (argmaxIdx_getD_mem l hne) h)
    (argmaxIdx_getD_ge l m hmem)

/-- An already-normalized token: its surface form equals its lemma and
it carries the classifications the normalizer's kept tokens have
(alphabetic, not a stopword, not punctuation, not numeric or
currency). -/
def normTok (t : String) : Tok :=
  { text := t, lemma_ := t, is_stop := false, is_punct := false,
    like_num := false, is_currency := false, is_alpha := true }

/-- The filter loop maps a list of already-normalized tokens (longer
than two characters, already lowercase) back to itself. -/
lemma filterMap_prStep_normTok :
    ∀ ts : List String, (∀ t ∈ ts, 2 < t.length) → (∀ t ∈ ts, pyLower t = t) →
      (ts.map normTok).filterMap prStep = ts := by
  intro ts
  induction ts with
  | nil => intro _ _; rfl
  | cons t ts ih =>
    intro hlen hlow
    have hstep : prStep (normTok t) = some t := by
      have h2 : decide (2 < t.length) = true :=
        decide_eq_true (hlen t (List.mem_cons_self t ts))
      simp [prStep, normTok, h2, hlow t (List.mem_cons_self t ts)]
    rw [List.map_cons, List.filterMap_cons, hstep,
        ih (fun u hu => hlen u (List.mem_cons_of_mem t hu))
           (fun u hu => hlow u (List.mem_cons_of_mem t hu))]

/-- Claim C5: `preprocess_text` always returns a non-empty token list;
whenever the filtering loop produces an empty result — in particular on
the empty string, where the pipeline yields no tokens — it substitutes
the fixed fallback sequence `['boutique', 'shirt']`. -/
theorem preprocess_text_never_empty (nlp : String → List Tok) (text : String) :
    preprocess_text nlp text ≠ [] ∧
    (preprocessCore nlp text = [] →
      preprocess_text nlp text = ["boutique", "shirt"]) := by
  cases hc : preprocessCore nlp text with
  | nil => simp [preprocess_text, hc]
  | cons a l => simp [preprocess_text, hc]

/-- Witness for C5: a pipeline returning no tokens (as spaCy does on
`""`) makes the normalizer return the fallback, which is non-empty. -/
theorem preprocess_text_never_empty_witness :
    preprocess_text (fun _ => []) "" ≠ [] ∧
    preprocess_text (fun _ => []) "" = ["boutique", "shirt"] :=
  ⟨(preprocess_text_never_empty (fun _ => []) "").1,
   (preprocess_text_never_empty (fun _ => []) "").2 rfl⟩

/-- Claim C9: the normalizer is idempotent on already-normalized input:
if tokenizing the space-joined text of a non-empty sequence of
lowercased, non-stopword, alphabetic, length-greater-than-2 tokens in
lemma form yields exactly those tokens back, then `preprocess_text`
returns the sequence unchanged.  (Non-emptiness is part of being
already normalized: by C5 the normalizer never outputs an empty
sequence.) -/
theorem preprocess_text_idempotent (nlp : String → List Tok)
    (ts : List String) (hne : ts ≠ [])
    (hnlp : nlp (String.intercalate " " ts) = ts.map normTok)
    (hlen : ∀ t ∈ ts, 2 < t.length)
    (hlow : ∀ t ∈ ts, pyLower t = t) :
    preprocess_text nlp (String.intercalate " " ts) = ts := by
  have hcore : preprocessCore nlp (String.intercalate " " ts) = ts := by
    unfold preprocessCore
    rw [hnlp]
    exact filterMap_prStep_normTok ts hlen hlow
  unfold preprocess_text
  rw [hcore]
  cases ts with
  | nil => cases hne rfl
  | cons t ts2 => simp

/-- Witness for C9: re-normalizing the normalized tokens
`["abc", "def"]` returns them unchanged. -/
theorem preprocess_text_idempotent_witness :
    preprocess_text (fun _ => [normTok "abc", normTok "def"])
      (String.intercalate " " ["abc", "def"]) = ["abc", "def"] :=
  preprocess_text_idempotent (fun _ => [normTok "abc", normTok "def"])
    ["abc", "def"] (by decide) rfl (by decide) (by decide)

/-- Claim C1: the router's paths are mutually exclusive and evaluated
in strict priority order with first match winning: whenever the
lowercased query contains one of `"price"`, `"cost"`, `"how much"`,
`generate_response` takes the pricing path and returns exactly the
Pricing Handler's output — for every similarity scoring function, so
the generic path is never consulted. -/
theorem generate_response_pricing_priority (faqs : List Faq)
    (collections : List String) (score : String → List ℚ)
    (user_query : String) (h : hasPricingKeyword user_query = true) :
    route collections user_query = Route.pricing ∧
    generate_response faqs collections score user_query =
      handle_pricing_query faqs user_query := by
  have hr : route collections user_query = Route.pricing := by
    unfold route
    rw [h]
    rfl
  exact ⟨hr, by unfold generate_response; rw [hr]⟩

/-- Witness for C1: the spec's pricing keyword test query routes to the
Pricing Handler. -/
theorem generate_response_pricing_priority_witness :
    route [] "What\x27s the price of the silk shirt?" = Route.pricing ∧
    generate_response [] [] (fun _ => [])
        "What\x27s the price of the silk shirt?" =
      handle_pricing_query [] "What\x27s the price of the silk shirt?" :=
  generate_response_pricing_priority [] [] (fun _ => [])
    "What\x27s the price of the silk shirt?" (by decide)

/-- Claim C2: on the generic path (no pricing keyword, no matching
collection), `generate_response` returns the fallback suggestions when
the best similarity is exactly 0.4 (the comparison is strict), and
returns the formatted top-scoring FAQ when the best similarity strictly
exceeds 0.4. -/
theorem generate_response_threshold (faqs : List Faq)
    (collections : List String) (score : String → List ℚ)
    (user_query : String)
    (h1 : hasPricingKeyword user_query = false)
    (h2 : ∀ c ∈ collections,
      strContains (pyLower user_query) (pyLower c) = false) :
    ((score user_query).maximum = (((2 : ℚ)/5 : ℚ) : WithBot ℚ) →
      generate_response faqs collections score user_query =
        get_fallback_response) ∧
    (∀ m : ℚ, (score user_query).maximum = (m : WithBot ℚ) → (2 : ℚ)/5 < m →
      generate_response faqs collections score user_query =
        format_response (faqs.getD (argmaxIdx (score user_query)) default)) := by
  have hfind : collections.find?
      (fun c => strContains (pyLower user_query) (pyLower c)) = none :=
    List.find?_eq_none.2 (fun c hc => by simp [h2 c hc])
  have hr : route collections user_query = Route.generic := by
    unfold route
    rw [h1]
    simp [hfind]
  have hg : generate_response faqs collections score user_query =
      genericResponse faqs (score user_query) := by
    unfold generate_response
    rw [hr]
  constructor
  · intro hmax
    have hbest : (score user_query).getD (argmaxIdx (score user_query)) 0 =
        (2 : ℚ)/5 :=
      argmaxIdx_getD_eq_maximum _ _ hmax
    rw [hg]
    unfold genericResponse
    rw [hbest, if_neg (lt_irrefl ((2 : ℚ)/5))]
  · intro m hmax hlt
    have hbest : (score user_query).getD (argmaxIdx (score user_query)) 0 = m :=
      argmaxIdx_getD_eq_maximum _ _ hmax
    rw [hg]
    unfold genericResponse
    rw [hbest, if_pos hlt]

/-- Witness for C2: a query scoring exactly 0.4 against the single
corpus document gets the fallback response. -/
theorem generate_response_threshold_witness :
    generate_response [] [] (fun _ => [(2 : ℚ)/5]) "hello" =
      get_fallback_response :=
  (generate_response_threshold [] [] (fun _ => [(2 : ℚ)/5]) "hello"
    (by decide) (by simp)).1 (by simp)

/-- Claim C10: if some loaded FAQ record lacks the `collection` field,
`get_unique_collections` contains the empty string; since the empty
string is a substring of every query, every query without a pricing
keyword is routed to the Collection Handler (for whichever known
collection matches first), so the generic similarity path is
unreachable for such a corpus. -/
theorem missing_collection_blocks_generic (faqs : List Faq)
    (score : String → List ℚ) (user_query : String)
    (hmiss : ∃ faq ∈ faqs, faq.collection = none)
    (h1 : hasPricingKeyword user_query = false) :
    "" ∈ get_unique_collections faqs ∧
    route (get_unique_collections faqs) user_query ≠ Route.generic ∧
    ∃ c, route (get_unique_collections faqs) user_query = Route.collection c ∧
      generate_response faqs (get_unique_collections faqs) score user_query =
        handle_collection_query faqs c := by
  obtain ⟨faq, hfaq, hnone⟩ := hmiss
  have hmem : "" ∈ get_unique_collections faqs := by
    unfold get_unique_collections
    rw [List.mem_dedup]
    exact List.mem_map.2 ⟨faq, hfaq, by rw [hnone]; rfl⟩
  have hsome : ((get_unique_collections faqs).find?
      (fun c => strContains (pyLower user_query) (pyLower c))).isSome := by
    rw [List.find?_isSome]
    exact ⟨"", hmem, by
      rw [show pyLower "" = "" from rfl]
      exact strContains_empty _⟩
  obtain ⟨c, hc⟩ := Option.isSome_iff_exists.1 hsome
  have hr : route (get_unique_collections faqs) user_query =
      Route.collection c := by
    unfold route
    rw [h1]
    simp only [Bool.false_eq_true, if_false, hc]
  refine ⟨hmem, ?_, c, hr, ?_⟩
  · rw [hr]
    exact fun h => Route.noConfusion h
  · unfold generate_response
    rw [hr]

/-- Witness for C10: a one-record corpus whose record lacks the
`collection` field sends the keyword-free query `"hello"` away from the
generic path. -/
theorem missing_collection_blocks_generic_witness :
    "" ∈ get_unique_collections [Faq.mk "q" "a" [] none none none] ∧
    route (get_unique_collections [Faq.mk "q" "a" [] none none none])
      "hello" ≠ Route.generic :=
  ⟨(missing_collection_blocks_generic [Faq.mk "q" "a" [] none none none]
      (fun _ => []) "hello" ⟨Faq.mk "q" "a" [] none none none, by simp, rfl⟩
      (by decide)).1,
   (missing_collection_blocks_generic [Faq.mk "q" "a" [] none none none]
      (fun _ => []) "hello" ⟨Faq.mk "q" "a" [] none none none, by simp, rfl⟩
      (by decide)).2.1⟩

/-- Claim C4: the Collection Handler filters the records whose
`collection` field equals the matched name exactly; with no match it
returns the "not found" message naming the collection, otherwise a
header plus a bulleted list of at most the first 3 matching records'
questions, and every listed question comes from that collection. -/
theorem handle_collection_query_spec (faqs : List Faq) (collection : String) :
    (faqs.filter (fun f => f.collection == some collection) = [] →
      handle_collection_query faqs collection =
        "Sorry, we couldn\x27t find details about " ++ collection) ∧
    (faqs.filter (fun f => f.collection == some collection) ≠ [] →
      handle_collection_query faqs collection =
        String.intercalate "\n"
          (["✨ **" ++ collection ++ "** ✨", "Featured in this collection:"] ++
           ((faqs.filter (fun f => f.collection == some collection)).take 3).map
             (fun faq => "- " ++ faq.question))) ∧
    ((faqs.filter (fun f => f.collection == some collection)).take 3).length ≤ 3 ∧
    (∀ faq ∈ (faqs.filter (fun f => f.collection == some collection)).take 3,
      faq.collection = some collection) := by
  refine ⟨?_, ?_, ?_, ?_⟩
  · intro h
    simp [handle_collection_query, h]
  · intro h
    cases hf : faqs.filter (fun f => f.collection == some collection) with
    | nil => exact absurd hf h
    | cons a l => simp [handle_collection_query, hf]
  · rw [List.length_take]
    exact min_le_left _ _
  · intro faq hfaq
    have hmem : faq ∈ faqs.filter (fun f => f.collection == some collection) :=
      List.take_subset _ _ hfaq
    exact eq_of_beq (List.mem_filter.1 hmem).2

/-- Witness for C4: a two-record corpus with one record in collection
`"X"`; querying `"X"` lists exactly that record's question. -/
theorem handle_collection_query_spec_witness :
    handle_collection_query
        [Faq.mk "q1" "a1" [] (some "X") none none,
         Faq.mk "q2" "a2" [] none none none] "X" =
      String.intercalate "\n"
        (["✨ **X** ✨", "Featured in this collection:"] ++
         (([Faq.mk "q1" "a1" [] (some "X") none none,
            Faq.mk "q2" "a2" [] none none none].filter
              (fun f => f.collection == some "X")).take 3).map
           (fun faq => "- " ++ faq.question)) :=
  (handle_collection_query_spec
    [Faq.mk "q1" "a1" [] (some "X") none none,
     Faq.mk "q2" "a2" [] none none none] "X").2.1 (by decide)

/-- Counterexample to C3 as stated: `handle_pricing_query` tests key
presence (`'price_range' in faq`), not non-emptiness.  A record whose
`price_range` is the empty string matches every query (the empty string
is a substring of anything), so a corpus in which no record has a
non-empty `price_range` still produces a formatted block instead of the
fallback pricing table. -/
theorem handle_pricing_query_empty_range_counterexample :
    pricingMatches "price" (Faq.mk "q" "a" [] (some "X") (some "") none) = true ∧
    handle_pricing_query [Faq.mk "q" "a" [] (some "X") (some "") none] "price" =
      "**X**\nPrice Range: \nInclusions: a\n" ∧
    handle_pricing_query [Faq.mk "q" "a" [] (some "X") (some "") none] "price" ≠
      get_fallback_pricing := by
  refine ⟨by decide, by decide, by decide⟩

/-- Claim C3 as amended: the Pricing Handler scans exactly the records
whose `price_range` key is present (even when its value is the empty
string, which matches every query), emits one formatted block per
record whose lowercased `price_range` occurs in the lowercased query,
joins the blocks, and returns the fixed three-tier fallback pricing
table if and only if no present-`price_range` record matched. -/
theorem handle_pricing_query_spec (faqs : List Faq) (query : String) :
    handle_pricing_query faqs query =
      if (faqs.filter (pricingMatches query)).isEmpty then get_fallback_pricing
      else String.intercalate "\n"
        ((faqs.filter (pricingMatches query)).map priceBlock) := by
  unfold handle_pricing_query
  have hfm : faqs.filterMap (fun faq =>
      match faq.price_range with
      | some pr =>
          if strContains (pyLower query) (pyLower pr) then
            some ("**" ++ faq.collection.getD "Collection" ++ "**\n" ++
                  "Price Range: " ++ pr ++ "\n" ++
                  "Inclusions: " ++ faq.answer ++ "\n")
          else none
      | none => none) =
      (faqs.filter (pricingMatches query)).map priceBlock := by
    induction faqs with
    | nil => rfl
    | cons f fs ih =>
      rw [List.filterMap_cons, List.filter_cons]
      cases hpr : f.price_range with
      | none => simp [pricingMatches, hpr, ih]
      | some pr =>
        by_cases hc : strContains (pyLower query) (pyLower pr) = true
        · simp [pricingMatches, hpr, hc, ih, priceBlock]
        · simp [pricingMatches, hpr, hc, ih]
  rw [hfm]
  cases hf : faqs.filter (pricingMatches query) with
  | nil => simp
  | cons a l => simp

/-- Claim C8: the Corpus Loader never propagates a read or parse
failure — it surfaces a user-visible error message and returns the
empty corpus; on success it returns the (possibly empty) record list
found under the top-level `"faqs"` key, with no error. -/
theorem load_faqs_spec :
    (∀ e : String, load_faqs (Except.error e) =
      ([], some ("Error loading FAQ file: " ++ e))) ∧
    (∀ faqs : List Faq, load_faqs (Except.ok (some faqs)) = (faqs, none)) ∧
    load_faqs (Except.ok none) = ([], none) :=
  ⟨fun _ => rfl, fun _ => rfl, rfl⟩

/-- Claim C6: the fitted vocabulary contains a term if and only if the
term occurs in at least 2 documents of the normalized corpus (the
`min_df=2` threshold); in particular a term of document frequency 1 is
absent and one of document frequency 2 is present. -/
theorem vocabulary_min_df (docs : List (List String)) (term : String) :
    term ∈ vocabulary docs ↔ 2 ≤ docFreq term docs := by
  unfold vocabulary
  rw [List.mem_filter]
  constructor
  · rintro ⟨-, h⟩
    exact of_decide_eq_true h
  · intro h
    refine ⟨?_, decide_eq_true h⟩
    rw [List.mem_dedup, List.mem_flatten]
    have hpos : 0 < (docs.filter (fun d => decide (term ∈ d))).length :=
      lt_of_lt_of_le (by norm_num) h
    obtain ⟨d, hd⟩ := List.exists_mem_of_length_pos hpos
    have hd' := List.mem_filter.1 hd
    exact ⟨d, hd'.1, of_decide_eq_true hd'.2⟩

/-- Entries read through `getD` from an entrywise non-negative vector
are non-negative. -/
lemma getD_nonneg (x : List ℝ) (hx : ∀ a ∈ x, 0 ≤ a) (i : ℕ) :
    0 ≤ x.getD i 0 := by
  by_cases h : i < x.length
  · rw [List.getD_eq_getElem _ _ h]
    exact hx _ (List.getElem_mem h)
  · rw [List.getD_eq_default _ _ (le_of_not_lt h)]

/-- The dot product of entrywise non-negative vectors is non-negative. -/
lemma dotProd_nonneg (x y : List ℝ) (hx : ∀ a ∈ x, 0 ≤ a)
    (hy : ∀ a ∈ y, 0 ≤ a) : 0 ≤ dotProd x y :=
  Finset.sum_nonneg fun i _ =>
    mul_nonneg (getD_nonneg x hx i) (getD_nonneg y hy i)

/-- A vector's dot product with itself is non-negative. -/
lemma dotProd_self_nonneg (x : List ℝ) : 0 ≤ dotProd x x :=
  Finset.sum_nonneg fun _ _ => mul_self_nonneg _

/-- The partial sum of squared entries over any index range is at most
the full squared norm. -/
lemma sum_sq_le_dotProd_self (y : List ℝ) (n : ℕ) :
    ∑ i ∈ Finset.range n, y.getD i 0 * y.getD i 0 ≤ dotProd y y := by
  unfold dotProd
  rcases le_total n y.length with h | h
  · exact Finset.sum_le_sum_of_subset_of_nonneg (Finset.range_subset.2 h)
      (fun i _ _ => mul_self_nonneg _)
  · refine le_of_eq (Finset.sum_subset (Finset.range_subset.2 h) ?_).symm
    intro i _ hni
    have hlen : y.length ≤ i := le_of_not_lt (fun hlt => hni (Finset.mem_range.2 hlt))
    rw [List.getD_eq_default _ _ hlen, mul_zero]

/-- Cosine similarity of entrywise non-negative vectors lies in `[0,1]`
(Cauchy-Schwarz for the upper bound). -/
lemma cosine_similarity_bounds (x y : List ℝ) (hx : ∀ a ∈ x, 0 ≤ a)
    (hy : ∀ a ∈ y, 0 ≤ a) :
    0 ≤ cosine_similarity x y ∧ cosine_similarity x y ≤ 1 := by
  unfold cosine_similarity
  split_ifs with h
  · exact ⟨le_rfl, zero_le_one⟩
  · push_neg at h
    obtain ⟨hxx, hyy⟩ := h
    have hxx0 : 0 < dotProd x x :=
      lt_of_le_of_ne (dotProd_self_nonneg x) (Ne.symm hxx)
    have hyy0 : 0 < dotProd y y :=
      lt_of_le_of_ne (dotProd_self_nonneg y) (Ne.symm hyy)
    have hdx : 0 < Real.sqrt (dotProd x x) := Real.sqrt_pos.2 hxx0
    have hdy : 0 < Real.sqrt (dotProd y y) := Real.sqrt_pos.2 hyy0
    have hS : 0 ≤ dotProd x y := dotProd_nonneg x y hx hy
    refine ⟨div_nonneg hS (le_of_lt (mul_pos hdx hdy)), ?_⟩
    rw [div_le_one (mul_pos hdx hdy)]
    have hcs : (dotProd x y)^2 ≤ dotProd x x * dotProd y y := by
      have h1 : (∑ i ∈ Finset.range x.length, x.getD i 0 * y.getD i 0)^2 ≤
          (∑ i ∈ Finset.range x.length, (x.getD i 0)^2) *
            ∑ i ∈ Finset.range x.length, (y.getD i 0)^2 :=
        Finset.sum_mul_sq_le_sq_mul_sq _ _ _
      simp only [pow_two] at h1
      calc (dotProd x y)^2
          ≤ (∑ i ∈ Finset.range x.length, x.getD i 0 * x.getD i 0) *
              ∑ i ∈ Finset.range x.length, y.getD i 0 * y.getD i 0 := by
            rw [pow_two]; exact h1
        _ ≤ dotProd x x * dotProd y y := by
            unfold dotProd
            exact mul_le_mul_of_nonneg_left (sum_sq_le_dotProd_self y x.length)
              (Finset.sum_nonneg fun _ _ => mul_self_nonneg _)
    calc dotProd x y = Real.sqrt ((dotProd x y)^2) := (Real.sqrt_sq hS).symm
      _ ≤ Real.sqrt (dotProd x x * dotProd y y) := Real.sqrt_le_sqrt hcs
      _ = Real.sqrt (dotProd x x) * Real.sqrt (dotProd y y) :=
          Real.sqrt_mul (dotProd_self_nonneg x) _

/-- Claim C7: the vector model is aligned with the corpus — one search
text and one weight vector per FAQ record — and scoring a query
produces exactly one similarity per corpus document, each value lying
in `[0,1]` under the non-negative TF-IDF weighting (entrywise
non-negative query and document vectors). -/
theorem scoreRow_length_and_bounds (faqs : List Faq)
    (embed : String → List ℝ) (q : List ℝ)
    (hq : ∀ a ∈ q, 0 ≤ a)
    (hvec : ∀ t : String, ∀ a ∈ embed t, 0 ≤ a) :
    ((build_search_context faqs).map embed).length = faqs.length ∧
    (scoreRow q ((build_search_context faqs).map embed)).length = faqs.length ∧
    ∀ s ∈ scoreRow q ((build_search_context faqs).map embed),
      0 ≤ s ∧ s ≤ 1 := by
  refine ⟨by simp [build_search_context], by simp [scoreRow, build_search_context], ?_⟩
  intro s hs
  rw [scoreRow, List.mem_map] at hs
  obtain ⟨v, hv, rfl⟩ := hs
  rw [List.mem_map] at hv
  obtain ⟨t, _, rfl⟩ := hv
  exact cosine_similarity_bounds q (embed t) hq (hvec t)

/-- Witness for C7: a one-record corpus with constant unit embedding
gives a similarity row of length 1. -/
theorem scoreRow_length_and_bounds_witness :
    (scoreRow [(1 : ℝ)]
      ((build_search_context [Faq.mk "q" "a" [] none none none]).map
        (fun _ => [(1 : ℝ)]))).length = 1 :=
  (scoreRow_length_and_bounds [Faq.mk "q" "a" [] none none none]
    (fun _ => [(1 : ℝ)]) [(1 : ℝ)]
    (by rintro a ha; rcases List.mem_singleton.1 ha with rfl; norm_num)
    (by rintro t a ha; rcases List.mem_singleton.1 ha with rfl; norm_num)).2.1
